import Mathlib

/-!
# Verification of the runners-insights parsing and dashboard pipeline

Shallow embedding of the two source files of the repository:

* `src/webparser/parser.py` — `scrape_runners_data` (the per-line record
  extraction loop built around one `re.match` call), `clean_runners_data`
  (numeric coercion, derived age, row filtering).
* `src/visualization/app.py` — `set_age_group`, the derived `age` /
  `age_group` columns, the `(run_year, age_group)` group-by aggregate
  `df2`, and the `update_chart_and_table` filter callback.

The extraction regular expression

```
(?P<Category>[^ ]+) +(?P<Rang>\d+|DNF|DSQ|OUT)\.? +(?P<Fullname>[^\d]+?) +
(?P<Age_year>\d{4}|\?{4}) +(?P<Location>.*?) +(?P<total_time>[\d:.,]+)? +
.*?[^ ] +\(\d+\)
```

is embedded as an explicit backtracking search: each regex element is
compiled to the list of its candidate matches in Python's backtracking
priority order (greedy pieces propose longer matches first, lazy pieces
shorter first, alternatives left to right), and the whole pattern is the
depth-first search over those candidates (`List.findSome?`), exactly the
order in which CPython's `re` engine explores them.  `re.match` anchors at
the start of the line only, so trailing text after the final `\)` is
allowed.
-/

/-- Character class `[^ ]` (any character except a space; a negated class
matches newlines as well). -/
def nonSpace (c : Char) : Bool := c != ' '

/-- The literal space character, for the `" +"` separators of the pattern. -/
def spaceChar (c : Char) : Bool := c == ' '

/-- Character class `[^\d]` (any character that is not a decimal digit). -/
def nonDigit (c : Char) : Bool := !c.isDigit

/-- The regex `.` metacharacter without `DOTALL`: any character except a
newline. -/
def dotChar (c : Char) : Bool := c != '\n'

/-- Character class `[\d:.,]` of the `total_time` group. -/
def timeChar (c : Char) : Bool := c.isDigit || c == ':' || c == '.' || c == ','

/-- Candidates of a greedy one-or-more repetition `p+` at the front of `s`:
all nonempty splits `(matched, rest)` whose matched part lies in the class
`p`, longest first (greedy repetitions backtrack from the maximal run). -/
def splitsDesc (p : Char → Bool) (s : List Char) : List (List Char × List Char) :=
  let n := (s.takeWhile p).length
  (List.range n).map fun i => (s.take (n - i), s.drop (n - i))

/-- Candidates of a lazy one-or-more repetition `p+?` at the front of `s`:
all nonempty splits, shortest first. -/
def splitsAsc1 (p : Char → Bool) (s : List Char) : List (List Char × List Char) :=
  let n := (s.takeWhile p).length
  (List.range n).map fun i => (s.take (i + 1), s.drop (i + 1))

/-- Candidates of a lazy zero-or-more repetition `p*?` at the front of `s`:
all splits including the empty one, shortest first. -/
def splitsAsc0 (p : Char → Bool) (s : List Char) : List (List Char × List Char) :=
  let n := (s.takeWhile p).length
  (List.range (n + 1)).map fun i => (s.take i, s.drop i)

/-- A literal token alternative (`DNF`, `DSQ`, `OUT`, `????`): matches iff
the token is a prefix of `s`. -/
def litTok (t : List Char) (s : List Char) : List (List Char × List Char) :=
  if t.isPrefixOf s then [(t, s.drop t.length)] else []

/-- Exactly four characters of the class `p` (`\d{4}` and `\?{4}`). -/
def fourOf (p : Char → Bool) (s : List Char) : List (List Char × List Char) :=
  let t := s.take 4
  if t.length == 4 && t.all p then [(t, s.drop 4)] else []

/-- The `Rang` group `\d+|DNF|DSQ|OUT`: a greedy digit run, then the three
literal tokens, in the pattern's left-to-right order. -/
def rangAlts (s : List Char) : List (List Char × List Char) :=
  splitsDesc Char.isDigit s ++ litTok ['D', 'N', 'F'] s
    ++ litTok ['D', 'S', 'Q'] s ++ litTok ['O', 'U', 'T'] s

/-- The `Age_year` group `\d{4}|\?{4}`. -/
def ageYearAlts (s : List Char) : List (List Char × List Char) :=
  fourOf Char.isDigit s ++ fourOf (· == '?') s

/-- The optional period `\.?` after the `Rang` group (greedy: the branch
consuming the period is tried first); candidates are the possible rests. -/
def dotOpt (s : List Char) : List (List Char) :=
  match s with
  | '.' :: rest => [rest, s]
  | _ => [s]

/-- The optional group `(?P<total_time>[\d:.,]+)?` (greedy: present first,
longest first, then absent); an absent group captures `none`. -/
def timeOpt (s : List Char) : List (Option (List Char) × List Char) :=
  (splitsDesc timeChar s).map (fun q => (some q.1, q.2)) ++ [(none, s)]

/-- A single mandatory character of class `p` (used for `[^ ]`, `\(`, `\)`);
deterministic, so it yields an `Option` of the rest. -/
def oneChar (p : Char → Bool) (s : List Char) : Option (List Char) :=
  match s with
  | c :: rest => if p c then some rest else none
  | [] => none

/-- The named captures of a successful match of the extraction pattern,
mirroring `re.Match.groupdict()`: every group is a string, except the
optional `total_time`, which is `None` when the group did not participate
in the match. -/
structure Groups where
  category : List Char
  rang : List Char
  fullname : List Char
  age_year : List Char
  location : List Char
  total_time : Option (List Char)
deriving DecidableEq, Repr

/-- The embedded pattern match, element by element in the order of the
regular expression, with Python's backtracking explored by `findSome?`
over each element's prioritized candidate list.  Returns the captured
groups of the first (highest-priority) complete match, or `none` when no
assignment matches — exactly `re.match(pattern, line)`. -/
def matchRunner (s : List Char) : Option Groups :=
  (splitsDesc nonSpace s).findSome? fun cat =>
  (splitsDesc spaceChar cat.2).findSome? fun sp1 =>
  (rangAlts sp1.2).findSome? fun rang =>
  (dotOpt rang.2).findSome? fun afterDot =>
  (splitsDesc spaceChar afterDot).findSome? fun sp2 =>
  (splitsAsc1 nonDigit sp2.2).findSome? fun name =>
  (splitsDesc spaceChar name.2).findSome? fun sp3 =>
  (ageYearAlts sp3.2).findSome? fun ay =>
  (splitsDesc spaceChar ay.2).findSome? fun sp4 =>
  (splitsAsc0 dotChar sp4.2).findSome? fun loc =>
  (splitsDesc spaceChar loc.2).findSome? fun sp5 =>
  (timeOpt sp5.2).findSome? fun tt =>
  (splitsDesc spaceChar tt.2).findSome? fun sp6 =>
  (splitsAsc0 dotChar sp6.2).findSome? fun tl =>
  (oneChar nonSpace tl.2).bind fun afterChar =>
  (splitsDesc spaceChar afterChar).findSome? fun sp7 =>
  (oneChar (· == '(') sp7.2).bind fun afterParen =>
  (splitsDesc Char.isDigit afterParen).findSome? fun dg =>
  (oneChar (· == ')') dg.2).map fun _ =>
    { category := cat.1, rang := rang.1, fullname := name.1,
      age_year := ay.1, location := loc.1, total_time := tt.1 }

/-- One row of the scraped DataFrame, with the column names of
`scrape_runners_data`: the six captured groups plus `run_link = url` and
`run_year = int(year)`.  `total_time` is `None`-able because its group is
optional. -/
structure RawRecord where
  Category : String
  Rang : String
  Fullname : String
  Age_year : String
  Location : String
  total_time : Option String
  run_link : String
  run_year : Int
deriving DecidableEq, Repr

/-- The `new_row` DataFrame built from a successful `groupdict()`, the page
URL and the year. -/
def recordFrom (g : Groups) (url : String) (year : Int) : RawRecord :=
  { Category := ⟨g.category⟩, Rang := ⟨g.rang⟩, Fullname := ⟨g.fullname⟩,
    Age_year := ⟨g.age_year⟩, Location := ⟨g.location⟩,
    total_time := g.total_time.map (⟨·⟩),
    run_link := url, run_year := year }

/-- The per-line body of the `for runner in runners` loop: `re.match(...)
.groupdict()` inside `try`, so a non-matching line (where `.groupdict()`
raises on `None`) is skipped by the blanket `except: continue` and a
matching line yields the fully populated `new_row`. -/
def extract (line url : String) (year : Int) : Option RawRecord :=
  (matchRunner line.data).map fun g => recordFrom g url year

/-- The accumulation of one page's `runners` lines into the DataFrame `df`:
each matching line's `new_row` is prepended (`pd.concat([new_row, df])`),
each non-matching line leaves `df` unchanged (`continue`). -/
def scrape_fold (url : String) (year : Int) (runners : List String)
    (df : List RawRecord) : List RawRecord :=
  runners.foldl
    (fun acc line =>
      match extract line url year with
      | some r => r :: acc
      | none => acc)
    df

/-!
## Dataset normalization (`clean_runners_data`)

`clean_runners_data(df)` runs four column statements on the DataFrame
object it receives and then two rebinding statements:

```python
df["Age_year"] = pd.to_numeric(df["Age_year"], errors="coerce")
df["Age_year"] = df["Age_year"].astype("Int64")
df["run_year"] = df["run_year"].astype("Int64")
df["age"] = df["run_year"] - df["Age_year"]
df = df[df["age"].notna() & (df["age"] > 0)]
df = df.drop(columns=["age"]).reset_index(drop=True)
```

The first four assign columns **in place** on the caller's object; the
last two rebind the local name `df` to fresh DataFrames and leave the
caller's object alone.  The embedding therefore returns a pair: the state
of the caller's object after the call, and the value returned.
-/

/-- Surrounding blanks of a cell, stripped before numeric conversion. -/
def stripSpaces (cs : List Char) : List Char :=
  ((cs.dropWhile (· == ' ')).reverse.dropWhile (· == ' ')).reverse

/-- Decimal value of a digit run. -/
def parseDigits (cs : List Char) : Int :=
  Int.ofNat (cs.foldl (fun n c => n * 10 + (c.toNat - 48)) 0)

/-- Models `pd.to_numeric(·, errors="coerce")` on a string cell followed by
`astype("Int64")`: an integral numeral (optionally signed, surrounding
blanks stripped) becomes its value, anything else — in particular the
`"????"` placeholder — becomes the null value `none`, never `0`. -/
def toNumericCoerce (s : String) : Option Int :=
  match stripSpaces s.data with
  | [] => none
  | '-' :: rest =>
      if !rest.isEmpty && rest.all Char.isDigit then some (-(parseDigits rest)) else none
  | '+' :: rest =>
      if !rest.isEmpty && rest.all Char.isDigit then some (parseDigits rest) else none
  | cs =>
      if cs.all Char.isDigit then some (parseDigits cs) else none

/-- A row of the caller's DataFrame object after `clean_runners_data` has
run: the `Age_year` and `run_year` columns hold nullable integers
(`Int64`), and the temporary `age` column has been added (it is dropped
only from the *returned* frame, not from the caller's object). -/
structure MutRow where
  Category : String
  Rang : String
  Fullname : String
  Age_year : Option Int
  Location : String
  total_time : Option String
  run_link : String
  run_year : Option Int
  age : Option Int
deriving DecidableEq, Repr

/-- A row of the DataFrame returned by `clean_runners_data`: the same
columns as the raw frame, with the year columns coerced and the temporary
`age` column dropped. -/
structure CleanRow where
  Category : String
  Rang : String
  Fullname : String
  Age_year : Option Int
  Location : String
  total_time : Option String
  run_link : String
  run_year : Option Int
deriving DecidableEq, Repr

/-- The effect of the four in-place column statements on one row:
`Age_year` coerced to a nullable integer, `run_year` cast to nullable
`Int64` (it was built from `int(year)`, so the cast always succeeds), and
`age = run_year - Age_year` with pandas' null propagation. -/
def coerceRow (r : RawRecord) : MutRow :=
  let ay := toNumericCoerce r.Age_year
  let ry : Option Int := some r.run_year
  { Category := r.Category, Rang := r.Rang, Fullname := r.Fullname,
    Age_year := ay, Location := r.Location, total_time := r.total_time,
    run_link := r.run_link, run_year := ry,
    age := match ry, ay with
           | some b, some a => some (b - a)
           | _, _ => none }

/-- The row predicate `df["age"].notna() & (df["age"] > 0)` (a null age
compares as not-greater-than-zero and is filtered out). -/
def validAge (m : MutRow) : Bool :=
  match m.age with
  | some a => decide (0 < a)
  | none => false

/-- `df.drop(columns=["age"])` on one row. -/
def dropAge (m : MutRow) : CleanRow :=
  { Category := m.Category, Rang := m.Rang, Fullname := m.Fullname,
    Age_year := m.Age_year, Location := m.Location,
    total_time := m.total_time, run_link := m.run_link,
    run_year := m.run_year }

/-- `clean_runners_data`.  First component: the caller's DataFrame object
after the call (every row coerced, `age` column attached, no row removed).
Second component: the returned DataFrame (rows with null or non-positive
age filtered out, `age` column dropped, index reset). -/
def clean_runners_data (df : List RawRecord) : List MutRow × List CleanRow :=
  let obj := df.map coerceRow
  let kept := obj.filter validAge
  (obj, kept.map dropAge)

/-!
## The dashboard data (`app.py`)

`app.py` reads the persisted cleaned table back from SQLite (schema
`Age_year INTEGER, run_year INTEGER`, so both columns come back as
non-null machine integers — `clean_runners_data` guarantees no null
survives), derives `age` and `age_group` columns, and aggregates.
-/

/-- Classification of an age into the five fixed buckets, translated
if-chain by if-chain from `set_age_group`. -/
def set_age_group (age : Int) : String :=
  if age ≤ 20 then "0-20"
  else if 20 < age ∧ age ≤ 30 then "20-30"
  else if 30 < age ∧ age ≤ 40 then "30-40"
  else if 40 < age ∧ age ≤ 50 then "40-50"
  else "50+"

/-- A row as loaded by `pd.read_sql_query` from the `runners` table:
`Age_year` and `run_year` are plain integers. -/
structure LoadedRow where
  Category : String
  Rang : String
  Fullname : String
  Age_year : Int
  Location : String
  total_time : Option String
  run_link : String
  run_year : Int
deriving DecidableEq, Repr

/-- The SQLite round-trip of one cleaned row: defined exactly when both
year columns are non-null (which holds for every row `clean_runners_data`
returns — see `clean_loadRow_isSome`). -/
def loadRow (r : CleanRow) : Option LoadedRow :=
  match r.Age_year, r.run_year with
  | some a, some b =>
      some { Category := r.Category, Rang := r.Rang, Fullname := r.Fullname,
             Age_year := a, Location := r.Location, total_time := r.total_time,
             run_link := r.run_link, run_year := b }
  | _, _ => none

/-- A row of the dashboard's global `df` after the two derived-column
statements `df["age"] = df["run_year"] - df["Age_year"]` and
`df["age_group"] = df["age"].apply(set_age_group)`. -/
structure AppRow where
  Category : String
  Rang : String
  Fullname : String
  Age_year : Int
  Location : String
  total_time : Option String
  run_link : String
  run_year : Int
  age : Int
  age_group : String
deriving DecidableEq, Repr

/-- The two derived-column statements applied to one loaded row. -/
def appAugment (r : LoadedRow) : AppRow :=
  { Category := r.Category, Rang := r.Rang, Fullname := r.Fullname,
    Age_year := r.Age_year, Location := r.Location,
    total_time := r.total_time, run_link := r.run_link,
    run_year := r.run_year,
    age := r.run_year - r.Age_year,
    age_group := set_age_group (r.run_year - r.Age_year) }

/-- The dashboard's dataset: the persisted cleaned rows loaded back and
augmented with the derived `age` and `age_group` columns. -/
def load_dataset (cleaned : List CleanRow) : List AppRow :=
  (cleaned.filterMap loadRow).map appAugment

/-- The group-by key of `df.groupby(["run_year", "age_group"])`. -/
def keyOf (r : AppRow) : Int × String := (r.run_year, r.age_group)

/-- One row of the aggregate `df2`: a distinct `(run_year, age_group)`
pair with the number of athletes in it (`.size()`). -/
structure AggRow where
  run_year : Int
  age_group : String
  count : Nat
deriving DecidableEq, Repr

/-- The aggregate row of one group-by key. -/
def aggRowOf (rows : List AppRow) (k : Int × String) : AggRow :=
  { run_year := k.1, age_group := k.2,
    count := rows.countP (fun r => decide (keyOf r = k)) }

/-- `df2 = df.groupby(["run_year","age_group"]).size().reset_index(...)`:
one row per distinct key with the size of its group.  (pandas emits the
keys sorted; the embedding lists them in first-occurrence order — row
order of the aggregate is not significant to any consumer.) -/
def aggregate (rows : List AppRow) : List AggRow :=
  ((rows.map keyOf).dedup).map (aggRowOf rows)

/-- Truthiness of a Dash multi-dropdown value: the callback guards each
filter with `if selected_years:` / `if selected_age_groups:`, which is
`False` both for `None` (nothing ever selected) and for `[]` (selection
cleared). -/
def truthy (s : Option (List String)) : Bool :=
  match s with
  | some (_ :: _) => true
  | _ => false

/-- The underlying list of a dropdown value (`None` behaves as `[]`). -/
def sel (s : Option (List String)) : List String := s.getD []

/-- The `update_chart_and_table` callback body: starting from copies of
the full `df` and `df2`, filter both by
`run_year.astype(str).isin(selected_years)` when the year selection is
truthy, then both by `age_group.isin(selected_age_groups)` when the
age-group selection is truthy; return the (bar-chart data, table data)
pair built from the filtered copies. -/
def update_chart_and_table (selected_years selected_age_groups : Option (List String))
    (df : List AppRow) (df2 : List AggRow) : List AggRow × List AppRow :=
  let filtered_data := df
  let filtered_bar_data := df2
  let filtered_data :=
    if truthy selected_years then
      filtered_data.filter (fun r => decide (toString r.run_year ∈ sel selected_years))
    else filtered_data
  let filtered_bar_data :=
    if truthy selected_years then
      filtered_bar_data.filter (fun a => decide (toString a.run_year ∈ sel selected_years))
    else filtered_bar_data
  let filtered_data :=
    if truthy selected_age_groups then
      filtered_data.filter (fun r => decide (r.age_group ∈ sel selected_age_groups))
    else filtered_data
  let filtered_bar_data :=
    if truthy selected_age_groups then
      filtered_bar_data.filter (fun a => decide (a.age_group ∈ sel selected_age_groups))
    else filtered_bar_data
  (filtered_bar_data, filtered_data)

/-- The total athlete count shown by a collection of aggregate rows. -/
def sumCounts (l : List AggRow) : Nat := (l.map AggRow.count).sum

/-!
## Helper lemmas
-/

/-- Every candidate proposed by a greedy one-or-more repetition is a
nonempty run of characters of its class. -/
theorem splitsDesc_mem {p : Char → Bool} {s t r : List Char}
    (h : (t, r) ∈ splitsDesc p s) : t ≠ [] ∧ t.all p = true := by
  unfold splitsDesc at h
  obtain ⟨i, hi, heq⟩ := List.mem_map.mp h
  have hi' : i < (s.takeWhile p).length := List.mem_range.mp hi
  have ht : t = s.take ((s.takeWhile p).length - i) := by
    have := congrArg Prod.fst heq
    simpa using this.symm
  have hpre : s.takeWhile p <+: s := List.takeWhile_prefix p
  obtain ⟨u, hu⟩ := hpre
  have htake : s.take ((s.takeWhile p).length - i)
      = (s.takeWhile p).take ((s.takeWhile p).length - i) := by
    have h2 : (s.takeWhile p ++ u).take ((s.takeWhile p).length - i)
        = (s.takeWhile p).take ((s.takeWhile p).length - i) :=
      List.take_append_of_le_length (Nat.sub_le (s.takeWhile p).length i)
    rw [hu] at h2
    exact h2
  constructor
  · rw [ht, htake]
    intro hnil
    have hlen := congrArg List.length hnil
    rw [List.length_take, List.length_nil] at hlen
    omega
  · rw [ht, htake]
    rw [List.all_eq_true]
    intro c hc
    exact List.mem_takeWhile_imp (List.mem_of_mem_take hc)

/-- A literal-token alternative only ever captures its own token. -/
theorem litTok_mem {t r tok s : List Char} (h : (t, r) ∈ litTok tok s) : t = tok := by
  unfold litTok at h
  by_cases hc : tok.isPrefixOf s
  · simp only [hc, if_true, List.mem_singleton, Prod.mk.injEq] at h
    exact h.1
  · simp [hc] at h

/-- Every candidate capture of the `Rang` group `\d+|DNF|DSQ|OUT` is a
nonempty digit run or one of the three literal tokens. -/
theorem rangAlts_mem {t r s : List Char} (h : (t, r) ∈ rangAlts s) :
    (t ≠ [] ∧ t.all Char.isDigit = true)
      ∨ t = ['D', 'N', 'F'] ∨ t = ['D', 'S', 'Q'] ∨ t = ['O', 'U', 'T'] := by
  unfold rangAlts at h
  rcases List.mem_append.mp h with h | h
  · rcases List.mem_append.mp h with h | h
    · rcases List.mem_append.mp h with h | h
      · exact Or.inl (splitsDesc_mem h)
      · exact Or.inr (Or.inl (litTok_mem h))
    · exact Or.inr (Or.inr (Or.inl (litTok_mem h)))
  · exact Or.inr (Or.inr (Or.inr (litTok_mem h)))

/-- Inversion of a successful pattern match at the `Rang` group: the
captured `rang` of any match was proposed by the group's own alternation
`\d+|DNF|DSQ|OUT` (at some suffix of the line). -/
theorem matchRunner_rang_inv {s : List Char} {g : Groups}
    (h : matchRunner s = some g) :
    ∃ u rest, (g.rang, rest) ∈ rangAlts u := by
  unfold matchRunner at h
  obtain ⟨cat, -, h⟩ := List.exists_of_findSome?_eq_some h
  obtain ⟨sp1, -, h⟩ := List.exists_of_findSome?_eq_some h
  obtain ⟨rang, hmem, h⟩ := List.exists_of_findSome?_eq_some h
  refine ⟨sp1.2, rang.2, ?_⟩
  have hg : g.rang = rang.1 := by
    obtain ⟨ad, -, h⟩ := List.exists_of_findSome?_eq_some h
    obtain ⟨sp2, -, h⟩ := List.exists_of_findSome?_eq_some h
    obtain ⟨nm, -, h⟩ := List.exists_of_findSome?_eq_some h
    obtain ⟨sp3, -, h⟩ := List.exists_of_findSome?_eq_some h
    obtain ⟨ay, -, h⟩ := List.exists_of_findSome?_eq_some h
    obtain ⟨sp4, -, h⟩ := List.exists_of_findSome?_eq_some h
    obtain ⟨loc, -, h⟩ := List.exists_of_findSome?_eq_some h
    obtain ⟨sp5, -, h⟩ := List.exists_of_findSome?_eq_some h
    obtain ⟨tt, -, h⟩ := List.exists_of_findSome?_eq_some h
    obtain ⟨sp6, -, h⟩ := List.exists_of_findSome?_eq_some h
    obtain ⟨tl, -, h⟩ := List.exists_of_findSome?_eq_some h
    obtain ⟨ac, -, h⟩ := Option.bind_eq_some.mp h
    obtain ⟨sp7, -, h⟩ := List.exists_of_findSome?_eq_some h
    obtain ⟨ap, -, h⟩ := Option.bind_eq_some.mp h
    obtain ⟨dg, -, h⟩ := List.exists_of_findSome?_eq_some h
    obtain ⟨cl, -, h⟩ := Option.map_eq_some'.mp h
    rw [← h]
  rw [hg]
  exact hmem

/-- The `"????"` placeholder fails numeric coercion. -/
theorem toNumericCoerce_placeholder : toNumericCoerce "????" = none := by decide

/-- Structure of a coerced row passing the age filter: the birth year
coerced successfully and the derived age `run_year - Age_year` is
strictly positive. -/
theorem coerceRow_valid_struct (raw : RawRecord)
    (h : validAge (coerceRow raw) = true) :
    ∃ a, toNumericCoerce raw.Age_year = some a ∧ 0 < raw.run_year - a := by
  unfold validAge coerceRow at h
  cases hay : toNumericCoerce raw.Age_year with
  | none => rw [hay] at h; simp at h
  | some a =>
    rw [hay] at h
    simp only [decide_eq_true_eq] at h
    exact ⟨a, rfl, h⟩

/-- Length of `filterMap` when the function succeeds on every element. -/
theorem len_filterMap_all_some {α β : Type} (f : α → Option β) :
    ∀ l : List α, (∀ x ∈ l, (f x).isSome) → (l.filterMap f).length = l.length := by
  intro l
  induction l with
  | nil => intro _; rfl
  | cons a t ih =>
    intro h
    have ha := h a (List.mem_cons_self a t)
    rw [List.filterMap_cons]
    cases hfa : f a with
    | none => rw [hfa] at ha; simp at ha
    | some b =>
      simp only [List.length_cons]
      rw [ih (fun x hx => h x (List.mem_cons_of_mem a hx))]

/-!
## Concrete rows used by witnesses and scenarios
-/

/-- A well-formed raw record (as extracted from a matching line). -/
def exGoodRaw : RawRecord :=
  { Category := "M40", Rang := "123", Fullname := "Jane Doe", Age_year := "1980",
    Location := "Zurich", total_time := some "3:45:10", run_link := "u", run_year := 2020 }

/-- A raw record whose birth year is the all-placeholder string. -/
def exPlaceholderRaw : RawRecord :=
  { Category := "M40", Rang := "77", Fullname := "John Roe", Age_year := "????",
    Location := "Basel", total_time := some "4:01:22", run_link := "u", run_year := 2019 }

/-- The dashboard row obtained from `exGoodRaw` after cleaning, loading
and attaching the derived columns. -/
def exGoodApp : AppRow :=
  { Category := "M40", Rang := "123", Fullname := "Jane Doe", Age_year := 1980,
    Location := "Zurich", total_time := some "3:45:10", run_link := "u", run_year := 2020,
    age := 40, age_group := "30-40" }

/-!
## The claims
-/

/-- C3: the age-group classifier `set_age_group` is a pure total function:
every integer age (zero and negative ones included) is mapped to exactly
one of the five fixed buckets, the boundary ages 20, 30, 40, 50 fall in
the lower bucket, and 21 and 51 in the next one up. -/
theorem set_age_group_five_buckets :
    (∀ a : Int, set_age_group a = "0-20" ∨ set_age_group a = "20-30"
        ∨ set_age_group a = "30-40" ∨ set_age_group a = "40-50"
        ∨ set_age_group a = "50+")
    ∧ set_age_group 20 = "0-20" ∧ set_age_group 21 = "20-30"
    ∧ set_age_group 50 = "40-50" ∧ set_age_group 51 = "50+"
    ∧ set_age_group 30 = "20-30" ∧ set_age_group 40 = "30-40"
    ∧ set_age_group 0 = "0-20" ∧ set_age_group (-7) = "0-20" := by
  refine ⟨?_, by decide, by decide, by decide, by decide, by decide, by decide,
    by decide, by decide⟩
  intro a
  unfold set_age_group
  split_ifs <;> simp

/-- C4: a raw record whose `Age_year` is the placeholder `"????"` coerces
to a null (never zero) birth year, hence a null derived age, fails the
age filter, and is dropped from the output of `clean_runners_data`
wherever it sits in the input. -/
theorem placeholder_birth_year_dropped (raw : RawRecord) (h : raw.Age_year = "????") :
    (coerceRow raw).Age_year = none
    ∧ (coerceRow raw).age = none
    ∧ validAge (coerceRow raw) = false
    ∧ ∀ pre post : List RawRecord,
        (clean_runners_data (pre ++ raw :: post)).2
          = (clean_runners_data (pre ++ post)).2 := by
  have hcoerce : toNumericCoerce raw.Age_year = none := by
    rw [h]; exact toNumericCoerce_placeholder
  have h1 : (coerceRow raw).Age_year = none := by simp [coerceRow, hcoerce]
  have h2 : (coerceRow raw).age = none := by simp [coerceRow, hcoerce]
  have h3 : validAge (coerceRow raw) = false := by
    unfold validAge
    rw [h2]
  refine ⟨h1, h2, h3, ?_⟩
  intro pre post
  simp [clean_runners_data, List.map_append, List.filter_append, List.filter_cons, h3]

/-- Witness for C4 at a concrete placeholder record. -/
theorem placeholder_birth_year_dropped_witness :
    (coerceRow exPlaceholderRaw).Age_year = none
    ∧ (coerceRow exPlaceholderRaw).age = none
    ∧ validAge (coerceRow exPlaceholderRaw) = false
    ∧ ∀ pre post : List RawRecord,
        (clean_runners_data (pre ++ exPlaceholderRaw :: post)).2
          = (clean_runners_data (pre ++ post)).2 :=
  placeholder_birth_year_dropped exPlaceholderRaw (by decide)

/-- C2: every row in the output of `clean_runners_data` has a non-null
coerced birth year and event year and a strictly positive derived age,
and is the untouched coercion of one of the input rows (rows are only
filtered, never repaired by substituting values). -/
theorem clean_output_positive_age (df : List RawRecord) (r : CleanRow)
    (h : r ∈ (clean_runners_data df).2) :
    (∃ a b, r.Age_year = some a ∧ r.run_year = some b ∧ 0 < b - a)
    ∧ ∃ raw, raw ∈ df ∧ r = dropAge (coerceRow raw) := by
  simp only [clean_runners_data] at h
  obtain ⟨m, hm, rfl⟩ := List.mem_map.mp h
  obtain ⟨hmm, hv⟩ := List.mem_filter.mp hm
  obtain ⟨raw, hraw, rfl⟩ := List.mem_map.mp hmm
  obtain ⟨a, hay, hpos⟩ := coerceRow_valid_struct raw hv
  refine ⟨⟨a, raw.run_year, ?_, rfl, hpos⟩, raw, hraw, rfl⟩
  show (coerceRow raw).Age_year = some a
  simp [coerceRow, hay]

/-- Witness for C2 at a concrete one-row dataset. -/
theorem clean_output_positive_age_witness :
    (∃ a b, (dropAge (coerceRow exGoodRaw)).Age_year = some a
        ∧ (dropAge (coerceRow exGoodRaw)).run_year = some b ∧ 0 < b - a)
    ∧ ∃ raw, raw ∈ [exGoodRaw] ∧ dropAge (coerceRow exGoodRaw) = dropAge (coerceRow raw) :=
  clean_output_positive_age [exGoodRaw] (dropAge (coerceRow exGoodRaw)) (by decide)

/-- C10: `clean_runners_data` writes the coerced `Age_year` and `run_year`
columns (and the temporary `age` column) back into the DataFrame object
passed by the caller — after the call the caller's object holds, row for
row, the coerced values — while the row filtering and the dropping of the
`age` column are confined to the returned value. -/
theorem clean_mutates_caller (df : List RawRecord) :
    (clean_runners_data df).1 = df.map coerceRow
    ∧ ((clean_runners_data df).1).length = df.length
    ∧ (∀ i (hi : i < df.length) (hi2 : i < ((clean_runners_data df).1).length),
        (((clean_runners_data df).1).get ⟨i, hi2⟩).Age_year
            = toNumericCoerce (df.get ⟨i, hi⟩).Age_year
        ∧ (((clean_runners_data df).1).get ⟨i, hi2⟩).run_year
            = some (df.get ⟨i, hi⟩).run_year)
    ∧ (clean_runners_data df).2 = (((clean_runners_data df).1).filter validAge).map dropAge := by
  refine ⟨rfl, by simp [clean_runners_data], ?_, rfl⟩
  intro i hi hi2
  constructor
  · simp [clean_runners_data, coerceRow]
  · simp [clean_runners_data, coerceRow]

/-- Witness for C10: on a concrete one-row dataset the caller's object
holds the coerced (null) birth year after the call. -/
theorem clean_mutates_caller_witness :
    (((clean_runners_data [exPlaceholderRaw]).1).get ⟨0, by decide⟩).Age_year
        = toNumericCoerce ([exPlaceholderRaw].get ⟨0, by decide⟩).Age_year
    ∧ (((clean_runners_data [exPlaceholderRaw]).1).get ⟨0, by decide⟩).run_year
        = some (([exPlaceholderRaw].get ⟨0, by decide⟩).run_year) :=
  (clean_mutates_caller [exPlaceholderRaw]).2.2.1 0 (by decide) (by decide)

/-- C9: every row of the dashboard dataset (the normalizer's surviving
rows, loaded back and augmented) carries the derived age
`run_year - Age_year` and the derived `age_group = set_age_group age`;
no surviving row is lost on the way (the load succeeds on all of them). -/
theorem normalizer_attaches_derived_fields (df : List RawRecord) :
    (∀ r, r ∈ load_dataset (clean_runners_data df).2 →
        r.age = r.run_year - r.Age_year ∧ r.age_group = set_age_group r.age)
    ∧ (load_dataset (clean_runners_data df).2).length
        = ((clean_runners_data df).2).length := by
  constructor
  · intro r hr
    unfold load_dataset at hr
    obtain ⟨l, hl, rfl⟩ := List.mem_map.mp hr
    exact ⟨rfl, rfl⟩
  · unfold load_dataset
    rw [List.length_map]
    apply len_filterMap_all_some
    intro r hr
    simp only [clean_runners_data] at hr
    obtain ⟨m, hm, rfl⟩ := List.mem_map.mp hr
    obtain ⟨hmm, hv⟩ := List.mem_filter.mp hm
    obtain ⟨raw, hraw, rfl⟩ := List.mem_map.mp hmm
    obtain ⟨a, hay, -⟩ := coerceRow_valid_struct raw hv
    simp [loadRow, dropAge, coerceRow, hay]

/-- Witness for C9 at a concrete one-row dataset. -/
theorem normalizer_attaches_derived_fields_witness :
    exGoodApp.age = exGoodApp.run_year - exGoodApp.Age_year
    ∧ exGoodApp.age_group = set_age_group exGoodApp.age :=
  (normalizer_attaches_derived_fields [exGoodRaw]).1 exGoodApp (by decide)

/-- A line that matches the pattern (digit rank, no period). -/
def exLine : String := "10-M 1 A B 2001 X 1:2 y (3)"

/-- The record extracted from `exLine` at year 2014. -/
def exLineRec : RawRecord :=
  { Category := "10-M", Rang := "1", Fullname := "A B", Age_year := "2001",
    Location := "X", total_time := some "1:2", run_link := "u", run_year := 2014 }

/-- An otherwise well-formed line whose rank is the sentinel `DNF` with a
trailing period. -/
def dnfLine : String := "M40 DNF. Jane Doe 1980 Zurich 3:45:10 x (55)"

/-- The record extracted from `dnfLine`: the period after `DNF` is matched
by the pattern's `\.?` outside the group and so never stored. -/
def dnfRec : RawRecord :=
  { Category := "M40", Rang := "DNF", Fullname := "Jane Doe", Age_year := "1980",
    Location := "Zurich", total_time := some "3:45:10", run_link := "u", run_year := 2020 }

/-- The dashboard row that `dnfRec` becomes after normalization. -/
def dnfApp : AppRow :=
  { Category := "M40", Rang := "DNF", Fullname := "Jane Doe", Age_year := 1980,
    Location := "Zurich", total_time := some "3:45:10", run_link := "u", run_year := 2020,
    age := 40, age_group := "30-40" }

/-- C1: the extractor is total-safe — on every line it yields either a
`RawRecord` with every field populated from the single pattern match (plus
the page URL and year) or no record at all, and the scrape loop skips
non-matching lines and continues: its accumulated DataFrame consists
exactly of the records of the matching lines (prepended, hence reversed)
on top of whatever was accumulated before. -/
theorem extractor_total_skip_on_mismatch (url : String) (year : Int)
    (lines : List String) (df0 : List RawRecord) :
    scrape_fold url year lines df0
        = (lines.filterMap (fun l => extract l url year)).reverse ++ df0
    ∧ ∀ l rec, extract l url year = some rec →
        ∃ g, matchRunner l.data = some g ∧ rec = recordFrom g url year := by
  constructor
  · induction lines generalizing df0 with
    | nil => simp [scrape_fold]
    | cons l ls ih =>
      have hstep : scrape_fold url year (l :: ls) df0
          = scrape_fold url year ls
              (match extract l url year with
               | some r => r :: df0
               | none => df0) := rfl
      rw [hstep]
      cases hx : extract l url year with
      | none => simp [List.filterMap_cons, hx, ih]
      | some r =>
        simp [List.filterMap_cons, hx, ih, List.reverse_cons, List.append_assoc]
  · intro l rec h
    unfold extract at h
    obtain ⟨g, hg, heq⟩ := Option.map_eq_some'.mp h
    exact ⟨g, hg, heq.symm⟩

/-- Witness for C1: a non-matching line is skipped, a matching one yields
its fully populated record. -/
theorem extractor_total_skip_on_mismatch_witness :
    scrape_fold "u" 2014 ["garbage", exLine] []
        = (["garbage", exLine].filterMap (fun l => extract l "u" 2014)).reverse ++ []
    ∧ ∃ g, matchRunner exLine.data = some g ∧ exLineRec = recordFrom g "u" 2014 :=
  ⟨(extractor_total_skip_on_mismatch "u" 2014 ["garbage", exLine] []).1,
   (extractor_total_skip_on_mismatch "u" 2014 ["garbage", exLine] []).2
     exLine exLineRec (by decide)⟩

/-- C7 counterexample: the claim's scenario line does not match the
extraction pattern at all.  The pattern's tail ` +.*?[^ ] +\(\d+\)`
demands, after `total_time`, a further space-separated chunk ending in a
non-space character before the parenthesized code, and
`"M40 123 Jane Doe 1980 Zurich 3:45:10 (55)"` has no such chunk, so
`re.match` returns `None` and the line is skipped. -/
theorem scenario_line_not_extracted :
    extract "M40 123 Jane Doe 1980 Zurich 3:45:10 (55)" "u" 2020 = none := by decide

/-- C7 amended: the scenario holds once the line carries an extra
non-space token between the time and the parenthesized code: extraction
yields exactly the claimed groups, and the record normalizes to age 40
and age group "30-40". -/
theorem scenario_line_amended :
    extract "M40 123 Jane Doe 1980 Zurich 3:45:10 x (55)" "u" 2020 = some exGoodRaw
    ∧ load_dataset (clean_runners_data [exGoodRaw]).2 = [exGoodApp] := by
  constructor
  · decide
  · decide

/-- C8: the rank captured by any successful extraction is a nonempty digit
run or exactly one of the literal tokens `DNF`, `DSQ`, `OUT` (an optional
trailing period is matched outside the group and discarded from the
stored value); the rank value plays no role in the age filter of the
normalizer; and an otherwise well-formed `DNF.` line is still extracted
and flows through normalization. -/
theorem rank_token_shape (line url : String) (year : Int) (rec : RawRecord)
    (h : extract line url year = some rec) :
    ((rec.Rang.data ≠ [] ∧ rec.Rang.data.all Char.isDigit = true)
      ∨ rec.Rang = "DNF" ∨ rec.Rang = "DSQ" ∨ rec.Rang = "OUT")
    ∧ (∀ rg : String, validAge (coerceRow { rec with Rang := rg }) = validAge (coerceRow rec))
    ∧ extract dnfLine "u" 2020 = some dnfRec
    ∧ load_dataset (clean_runners_data [dnfRec]).2 = [dnfApp] := by
  refine ⟨?_, fun rg => rfl, by decide, by decide⟩
  unfold extract at h
  obtain ⟨g, hg, heq⟩ := Option.map_eq_some'.mp h
  obtain ⟨u, rest, hmem⟩ := matchRunner_rang_inv hg
  have hdata : rec.Rang.data = g.rang := by rw [← heq]; rfl
  rcases rangAlts_mem hmem with hsh | hsh | hsh | hsh
  · left
    rw [hdata]
    exact hsh
  · right; left
    rw [← heq]
    show String.mk g.rang = "DNF"
    rw [hsh]
  · right; right; left
    rw [← heq]
    show String.mk g.rang = "DSQ"
    rw [hsh]
  · right; right; right
    rw [← heq]
    show String.mk g.rang = "OUT"
    rw [hsh]

/-- Witness for C8 at the concrete `DNF.` line. -/
theorem rank_token_shape_witness :
    (dnfRec.Rang.data ≠ [] ∧ dnfRec.Rang.data.all Char.isDigit = true)
      ∨ dnfRec.Rang = "DNF" ∨ dnfRec.Rang = "DSQ" ∨ dnfRec.Rang = "OUT" :=
  (rank_token_shape dnfLine "u" 2020 dnfRec (by decide)).1

/-- The year-dimension predicate applied by the callback: no restriction
when the selection is falsy, otherwise exact membership of the year's
string form in the selection. -/
def yearOK (sy : Option (List String)) (y : Int) : Bool :=
  !truthy sy || decide (toString y ∈ sel sy)

/-- The age-group-dimension predicate applied by the callback. -/
def groupOK (sg : Option (List String)) (g : String) : Bool :=
  !truthy sg || decide (g ∈ sel sg)

/-- The callback's two conditional filters amount to one filter by the
conjunction of the two dimension predicates, applied consistently to the
data rows and to the aggregate rows. -/
theorem update_eq (sy sg : Option (List String)) (df : List AppRow) (df2 : List AggRow) :
    update_chart_and_table sy sg df df2
      = (df2.filter (fun a => yearOK sy a.run_year && groupOK sg a.age_group),
         df.filter (fun r => yearOK sy r.run_year && groupOK sg r.age_group)) := by
  unfold update_chart_and_table yearOK groupOK
  cases hy : truthy sy <;> cases hg : truthy sg <;>
    simp [List.filter_filter, Bool.and_comm]

/-- Sums of pointwise sums split. -/
theorem sum_map_add_distrib {κ : Type} (l : List κ) (f g : κ → Nat) :
    (l.map (fun k => f k + g k)).sum = (l.map f).sum + (l.map g).sum := by
  induction l with
  | nil => rfl
  | cons a t ih =>
    simp only [List.map_cons, List.sum_cons, ih]
    omega

/-- Summing the indicator of one key over a filtered duplicate-free key
list that contains it yields the predicate's indicator at that key. -/
theorem indicator_filter_sum {κ : Type} [DecidableEq κ] (p : κ → Bool) (a : κ) :
    ∀ ks : List κ, ks.Nodup → a ∈ ks →
      ((ks.filter p).map (fun k => if a = k then (1 : Nat) else 0)).sum
        = if p a then 1 else 0 := by
  intro ks
  induction ks with
  | nil => intro _ ha; exact absurd ha (List.not_mem_nil a)
  | cons k t ih =>
    intro hnd ha
    obtain ⟨hknott, hndt⟩ := List.nodup_cons.mp hnd
    rcases List.mem_cons.mp ha with rfl | hat
    · have hz : ((t.filter p).map (fun x => if a = x then (1 : Nat) else 0)).sum = 0 := by
        apply List.sum_eq_zero
        intro x hx
        obtain ⟨k', hk', rfl⟩ := List.mem_map.mp hx
        have hne : a ≠ k' := fun he => hknott (he ▸ List.mem_of_mem_filter hk')
        simp [hne]
      cases hp : p a
      · rw [List.filter_cons_of_neg (by simp [hp])]
        rw [hz]
        simp
      · rw [List.filter_cons_of_pos (by simp [hp])]
        simp only [List.map_cons, List.sum_cons, if_pos rfl, hz]
        simp
    · have hank : a ≠ k := fun he => hknott (he ▸ hat)
      cases hp : p k
      · rw [List.filter_cons_of_neg (by simp [hp])]
        exact ih hndt hat
      · rw [List.filter_cons_of_pos (by simp [hp])]
        simp only [List.map_cons, List.sum_cons, if_neg hank, Nat.zero_add]
        exact ih hndt hat

/-- Partition counting: summing, over the keys of a duplicate-free and
complete key list that satisfy `p`, the number of rows with that key,
counts exactly the rows whose key satisfies `p`. -/
theorem groupSum {α κ : Type} [DecidableEq κ] (key : α → κ) (p : κ → Bool) :
    ∀ (rows : List α) (ks : List κ), ks.Nodup → (∀ r ∈ rows, key r ∈ ks) →
      ((ks.filter p).map (fun k => rows.countP (fun r => decide (key r = k)))).sum
        = rows.countP (fun r => p (key r)) := by
  intro rows
  induction rows with
  | nil =>
    intro ks _ _
    simp only [List.countP_nil]
    apply List.sum_eq_zero
    intro x hx
    obtain ⟨k', hk', rfl⟩ := List.mem_map.mp hx
    rfl
  | cons r rows ih =>
    intro ks hnd hc
    have hcr : key r ∈ ks := hc r (List.mem_cons_self r rows)
    have hcrows : ∀ x ∈ rows, key x ∈ ks := fun x hx => hc x (List.mem_cons_of_mem r hx)
    rw [List.countP_cons]
    have hmap : (ks.filter p).map (fun k => (r :: rows).countP (fun x => decide (key x = k)))
        = (ks.filter p).map
            (fun k => rows.countP (fun x => decide (key x = k)) + if key r = k then 1 else 0) := by
      apply List.map_congr_left
      intro k hk
      rw [List.countP_cons]
      congr 1
      by_cases hkr : key r = k <;> simp [hkr]
    rw [hmap, sum_map_add_distrib, ih ks hnd hcrows,
      indicator_filter_sum p (key r) ks hnd hcr]

/-- `groupSum` with the always-true predicate: the group counts sum to the
total number of rows. -/
theorem groupSum_total {α κ : Type} [DecidableEq κ] (key : α → κ) (rows : List α)
    (ks : List κ) (hnd : ks.Nodup) (hc : ∀ r ∈ rows, key r ∈ ks) :
    (ks.map (fun k => rows.countP (fun r => decide (key r = k)))).sum = rows.length := by
  have h := groupSum key (fun _ => true) rows ks hnd hc
  rw [List.filter_true] at h
  simpa using h

/-- C5: for every dashboard dataset and every selection (the empty one
included) the counts of the filtered aggregate sum to the number of rows
of the filtered dataset; with no selection the aggregate's counts sum to
the total number of records, each record being counted in exactly one
`(run_year, age_group)` group. -/
theorem aggregation_counts_consistent (rows : List AppRow)
    (sy sg : Option (List String)) :
    sumCounts (update_chart_and_table sy sg rows (aggregate rows)).1
        = ((update_chart_and_table sy sg rows (aggregate rows)).2).length
    ∧ sumCounts (aggregate rows) = rows.length := by
  have hnd : ((rows.map keyOf).dedup).Nodup := List.nodup_dedup _
  have hc : ∀ r ∈ rows, keyOf r ∈ (rows.map keyOf).dedup :=
    fun r hr => List.mem_dedup.mpr (List.mem_map_of_mem keyOf hr)
  constructor
  · rw [update_eq]
    show sumCounts
        ((aggregate rows).filter (fun a => yearOK sy a.run_year && groupOK sg a.age_group))
      = (rows.filter (fun r => yearOK sy r.run_year && groupOK sg r.age_group)).length
    unfold aggregate sumCounts
    rw [List.filter_map, List.map_map]
    have hfun1 : ((fun a : AggRow => yearOK sy a.run_year && groupOK sg a.age_group)
          ∘ aggRowOf rows)
        = (fun k : Int × String => yearOK sy k.1 && groupOK sg k.2) := rfl
    have hfun2 : (AggRow.count ∘ aggRowOf rows)
        = (fun k : Int × String => rows.countP (fun r => decide (keyOf r = k))) := rfl
    rw [hfun1, hfun2]
    rw [groupSum keyOf (fun k => yearOK sy k.1 && groupOK sg k.2) rows _ hnd hc]
    rw [List.countP_eq_length_filter]
    rfl
  · unfold aggregate sumCounts
    rw [List.map_map]
    have hfun2 : (AggRow.count ∘ aggRowOf rows)
        = (fun k : Int × String => rows.countP (fun r => decide (keyOf r = k))) := rfl
    rw [hfun2]
    exact groupSum_total keyOf rows _ hnd hc

/-- C6: an empty or absent selection leaves its dimension unrestricted and
a non-empty one keeps exactly the rows whose value is a member of the
selection by exact string equality (`run_year` compared as its string
form); both views are filtered by the same composite predicate; with both
selections falsy everything passes through unchanged; and with a falsy
year selection only the group restriction applies, across all years. -/
theorem selection_filter_semantics (sy sg : Option (List String))
    (df : List AppRow) (df2 : List AggRow) :
    ((update_chart_and_table sy sg df df2).2
        = df.filter (fun r => yearOK sy r.run_year && groupOK sg r.age_group))
    ∧ ((update_chart_and_table sy sg df df2).1
        = df2.filter (fun a => yearOK sy a.run_year && groupOK sg a.age_group))
    ∧ (truthy sy = false → truthy sg = false →
        update_chart_and_table sy sg df df2 = (df2, df))
    ∧ (truthy sy = false →
        (update_chart_and_table sy sg df df2).2
          = if truthy sg then df.filter (fun r => decide (r.age_group ∈ sel sg)) else df) := by
  refine ⟨?_, ?_, ?_, ?_⟩
  · rw [update_eq]
  · rw [update_eq]
  · intro hy hg
    unfold update_chart_and_table
    simp [hy, hg]
  · intro hy
    unfold update_chart_and_table
    cases hgc : truthy sg <;> simp [hy, hgc]

/-- A second dashboard row in a different year and age group. -/
def exOldApp : AppRow :=
  { Category := "M60", Rang := "5", Fullname := "Max Mu", Age_year := 1959,
    Location := "Bern", total_time := some "5:00:00", run_link := "u", run_year := 2019,
    age := 60, age_group := "50+" }

/-- A concrete two-row dashboard dataset. -/
def exDf : List AppRow := [exGoodApp, exOldApp]

/-- Witness for C6: an absent year selection with a non-empty group
selection restricts only by group. -/
theorem selection_filter_semantics_witness :
    (update_chart_and_table none (some ["50+"]) exDf (aggregate exDf)).2
      = if truthy (some ["50+"]) then
          exDf.filter (fun r => decide (r.age_group ∈ sel (some ["50+"])))
        else exDf :=
  (selection_filter_semantics none (some ["50+"]) exDf (aggregate exDf)).2.2.2 rfl
